import Mathlib

/-!
Shallow embedding of the MCAS shard core (src/unnamed/part_009, shard.cpp)
and proofs about the claims of the specification.

Conventions:
- machine integers are Nat with explicit reduction mod 2^64 where the
  source performs uint64 arithmetic (add64 / sub64 below);
- the backend key-value store, the lock registries and the pool manager
  are association lists (first match wins, as in std::map lookups over
  states built without duplicate keys);
- fallible source paths (C++ exceptions) are Option results, none meaning
  the exception escaped the modelled function;
- status codes are an inductive type, since the numeric values live in a
  header that is not part of src.
-/

/-- Status codes used by the shard (component/kvstore status values).
The numeric values are defined in a header outside src; only their
identity matters for the claims. -/
inductive Status where
  | sOk
  | sOkCreated
  | eFail
  | eInval
  | eLocked
  | eKeyNotFound
  | eTooLarge
  | eAlreadyExists
  | eInsufficientSpace
  | ePoolError
  | eBusy
  | eAlreadyOpen
deriving DecidableEq, Repr

/-- Translation of the anonymous-namespace helper is_locked (part_009
lines 959-985): S_OK and S_OK_CREATED count as a successful lock, every
other status as failure. -/
def is_locked : Status → Bool
  | Status.sOk => true
  | Status.sOkCreated => true
  | _ => false

/-- Observable events of a handler invocation, in program order: backend
lock and unlock calls, transport memory registration, lock-registry and
pending-rename insertions, and response posts. -/
inductive Ev where
  | lockAcq
  | lockFail
  | regMem
  | regFail
  | addShared
  | addExcl
  | addRename
  | unlock (flush : Bool)
  | post (st : Status)
  | post2
  | copyInline
  | zeroFill
deriving DecidableEq, Repr

/-- Whether some occurrence of a strictly precedes some occurrence of b
in the event list. -/
def occursBefore : Ev → Ev → List Ev → Bool
  | _, _, [] => false
  | a, b, e :: tr => (decide (e = a) && tr.any (fun x => decide (x = b))) || occursBefore a b tr

/-- Association-list lookup, first match wins (std::map::find over maps
built without duplicate keys). -/
def lookupA {κ α : Type} [DecidableEq κ] : List (κ × α) → κ → Option α
  | [], _ => none
  | (k, v) :: l, q => if q = k then some v else lookupA l q

/-- Replace the value of the first entry with the given key, appending a
new entry when the key is absent (std::map assignment / emplace result
update). -/
def setA {κ α : Type} [DecidableEq κ] : List (κ × α) → κ → α → List (κ × α)
  | [], q, v => [(q, v)]
  | (k, w) :: l, q, v => if q = k then (q, v) :: l else (k, w) :: setA l q v

/-- Remove the first entry with the given key (std::map::erase). -/
def eraseA {κ α : Type} [DecidableEq κ] : List (κ × α) → κ → List (κ × α)
  | [], _ => []
  | (k, w) :: l, q => if q = k then l else (k, w) :: eraseA l q

/-- Keys are pairwise distinct, the invariant every std::map enjoys. -/
def nodupKeys {κ α : Type} [DecidableEq κ] (l : List (κ × α)) : Prop :=
  (l.map Prod.fst).Nodup

/-- Unsigned 64-bit addition, as performed by the source on uint64 values. -/
def add64 (a b : Nat) : Nat := (a + b) % 2 ^ 64

/-- Unsigned 64-bit subtraction with wraparound, as performed by the
source on uint64 values. -/
def sub64 (a b : Nat) : Nat := (a % 2 ^ 64 + (2 ^ 64 - b % 2 ^ 64)) % 2 ^ 64

/-- An iovec pair. For pool regions, base is the virtual base address and
len the region length; for the entries built by region_breaks, base is
the region base address and len the CUMULATIVE offset boundary. -/
structure Iovec where
  base : Nat
  len : Nat
deriving DecidableEq, Repr

/-- One entry of the scatter-gather list returned in an IO response
(protocol Message_IO_response locate_element: absolute address and
length). -/
structure LocateElement where
  addr : Nat
  len : Nat
deriving DecidableEq, Repr

/-- Result record of Shard::offset_to_sg_list (part_009 line 1651):
the scatter-gather list, the enclosing registration range, and the
excess length clamped off the final element. -/
structure sg_result where
  sg_list : List LocateElement
  mr_low : Nat
  mr_high : Nat
  excess_length : Nat
deriving DecidableEq, Repr

/-- Translation of the anonymous-namespace region_breaks (part_009 lines
1567-1578): for each region in order, keep its base address and replace
its length by the running cumulative offset. The uint64 accumulation
offset += iov_len is modelled with add64. -/
def region_breaks_go (offset : Nat) : List Iovec → List Iovec
  | [] => []
  | r :: rs =>
    let off2 := add64 offset r.len
    ⟨r.base, off2⟩ :: region_breaks_go off2 rs

/-- Entry point of region_breaks, starting the cumulative offset at 0. -/
def region_breaks (regions : List Iovec) : List Iovec :=
  region_breaks_go 0 regions

/-- Loop of std::upper_bound as implemented by libstdc++: binary search
with pred i meaning comp(value, range[i]). The fuel argument starts at
the range length; len strictly decreases at every step so the fuel is
never exhausted before len reaches 0, making this a faithful rendering
of the while loop. -/
def ubGo (pred : Nat → Bool) : Nat → Nat → Nat → Nat
  | 0, first, _ => first
  | _ + 1, first, 0 => first
  | fuel + 1, first, len + 1 =>
    let half := (len + 1) / 2
    if pred (first + half) then ubGo pred fuel first half
    else ubGo pred fuel (first + half + 1) (len + 1 - half - 1)

/-- The two std::upper_bound calls of Shard::offset_to_sg_list (part_009
lines 1590-1595). NOTE the comparator from the source: it compares the
pool-relative offset a against the region BASE ADDRESS b.iov_base, not
against the cumulative boundary stored in b.iov_len. -/
def sg_upper_bound (rb : List Iovec) (v : Nat) : Nat :=
  ubGo (fun i => decide (v < (rb.getD i ⟨0, 0⟩).base)) rb.length 0 rb.length

/-- Translation of Shard::offset_to_sg_list (part_009 lines 1581-1652)
for a request range t = (lo, hi) over the region-break table rb.

The source loop at lines 1617-1633, "while (it_begin != it_end)", never
advances it_begin, so the function terminates only when the two
upper_bound results coincide; the non-terminating case is modelled as
none. The final-entry code at lines 1636-1651 dereferences it_begin,
which is undefined when it equals end(); that is also modelled as none.
In the terminating case the loop body contributes nothing and only the
final entry is emitted. -/
def offset_to_sg_list (t : Nat × Nat) (rb : List Iovec) : Option sg_result :=
  let ib := sg_upper_bound rb t.1
  let ie := sg_upper_bound rb t.2
  if ib = ie then
    match rb[ib]? with
    | none => none
    | some brk =>
      let begin_off := if ib = 0 then t.1 else sub64 t.1 (rb.getD (ib - 1) ⟨0, 0⟩).len
      let end_off := if ie = 0 then t.2 else sub64 t.2 (rb.getD (ie - 1) ⟨0, 0⟩).len
      let excess_length := if brk.len < end_off then sub64 end_off brk.len else 0
      let m_low := add64 brk.base begin_off
      let m_high := sub64 (add64 brk.base end_off) excess_length
      some
        { sg_list := [⟨m_low, sub64 m_high m_low⟩]
          mr_low := min (2 ^ 64 - 1) m_low
          mr_high := max 0 m_high
          excess_length := excess_length }
  else none

/-- Number of regions spanned by the offset range lo..hi, written from
the claim: region i with cumulative boundaries Bprev..B is spanned when
Bprev < hi and lo < B. -/
def spanned_region_count_go (bprev lo hi : Nat) : List Iovec → Nat
  | [] => 0
  | r :: rs =>
    let b := bprev + r.len
    (if bprev < hi ∧ lo < b then 1 else 0) + spanned_region_count_go b lo hi rs

/-- Entry point for spanned_region_count_go starting at boundary 0. -/
def spanned_region_count (regions : List Iovec) (lo hi : Nat) : Nat :=
  spanned_region_count_go 0 lo hi regions

/-- The concrete LOCATE input used to settle the sg-list claim: two 8 MiB
regions at realistic virtual addresses, and a request covering the whole
16 MiB pool (the literal end-to-end scenario 3 of the specification). -/
def c1_regions : List Iovec :=
  [⟨0x700000000000, 0x800000⟩, ⟨0x700000800000, 0x800000⟩]

/-- Sentinel key name prefix composed by PUT_ADVANCE and PUT_LOCATE
(part_009 lines 1072-1073 and 1237-1238). -/
def pendingTag : String := "___pending_"

/-- State touched by the two-stage PUT path: the backend objects
(key to target address and length), the set of write-locked target
addresses held in the backend, the shard-global exclusive-lock registry
(target address to refcount, shard.h member _locked_values_exclusive),
and the pending-rename registry (_pending_renames). -/
structure PState where
  slots : List (String × Nat × Nat)
  wlocked : List Nat
  excl : List (Nat × Nat)
  pend : List (Nat × String × String)
deriving DecidableEq, Repr

/-- Backend IKVStore lock with STORE_LOCK_WRITE on key k requesting
reqLen bytes: an absent key is created on demand (slot of the requested
length at a fresh address, status S_OK_CREATED); an existing key that is
already write-locked fails with E_LOCKED; otherwise the existing address
and EXISTING length are returned (the in-out value_len parameter is
overwritten). Returns (state, status, target address, target length). -/
def kv_lock_write (s : PState) (k : String) (reqLen fresh : Nat) :
    PState × Status × Nat × Nat :=
  match lookupA s.slots k with
  | none =>
    ({ s with slots := (k, fresh, reqLen) :: s.slots, wlocked := fresh :: s.wlocked },
      Status.sOkCreated, fresh, reqLen)
  | some (a, l) =>
    if a ∈ s.wlocked then (s, Status.eLocked, 0, 0)
    else ({ s with wlocked := a :: s.wlocked }, Status.sOk, a, l)

/-- Backend IKVStore unlock of the value at target address a. -/
def kv_unlock (s : PState) (a : Nat) : PState :=
  { s with wlocked := s.wlocked.erase a }

/-- Translation of Shard::add_locked_value_exclusive (part_009 lines
874-883): std::map::emplace inserts a fresh record only when the target
address is absent (the record refcount starts at 0, forced by the
increment that follows; the record struct lives in shard.h outside src),
then increments the refcount of the entry found at the target. -/
def add_locked_value_exclusive_m (l : List (Nat × Nat)) (a : Nat) : List (Nat × Nat) :=
  match lookupA l a with
  | some c => setA l a (c + 1)
  | none => setA l a 1

/-- Translation of Shard::io_response_put_locate (part_009 lines
1219-1290). Parameters beyond the request: fresh is the address the
backend would give to an on-demand created slot, dontStomp the
FLAGS_DONT_STOMP bit, regOk whether transport memory registration
succeeds (its failure is the modelled exception at lines 1274-1278).
When the lock fails the final status is E_INVAL because the KEY_NONE
check at line 1251 runs after the is_locked check and overwrites E_FAIL.
There is no length comparison between an existing slot and the request:
the source has none. -/
def put_locate_step (s : PState) (key : String) (vlen fresh : Nat)
    (dontStomp regOk : Bool) : PState × Status :=
  if dontStomp then (s, Status.eInval)
  else
    let k := pendingTag ++ key
    let r := kv_lock_write s k vlen fresh
    let s1 := r.1
    let rc := r.2.1
    let a := r.2.2.1
    if is_locked rc = false then (s1, Status.eInval)
    else if regOk then
      ({ s1 with excl := add_locked_value_exclusive_m s1.excl a, pend := (a, k, key) :: s1.pend },
        Status.sOk)
    else (kv_unlock s1 a, Status.eFail)

/-- Translation of Shard::io_response_put_advance (part_009 lines
1054-1130). Identical to put_locate_step except that an existing slot
whose length differs from the announced value length is rejected with
E_INVAL at lines 1089-1092 (the locked_key guard then releases the
backend lock), and a failed lock yields E_FAIL (single combined check at
line 1082). -/
def put_advance_step (s : PState) (key : String) (vlen fresh : Nat)
    (dontStomp regOk : Bool) : PState × Status :=
  if dontStomp then (s, Status.eInval)
  else
    let k := pendingTag ++ key
    let r := kv_lock_write s k vlen fresh
    let s1 := r.1
    let rc := r.2.1
    let a := r.2.2.1
    let l := r.2.2.2
    if is_locked rc = false then (s1, Status.eFail)
    else if l ≠ vlen then (kv_unlock s1 a, Status.eInval)
    else if regOk then
      ({ s1 with excl := add_locked_value_exclusive_m s1.excl a, pend := (a, k, key) :: s1.pend },
        Status.sOk)
    else (kv_unlock s1 a, Status.eFail)

/-- Translation of Shard::release_locked_value_exclusive (part_009 lines
900-913): an unknown target address throws Logic_exception (none); a
refcount of 1 unlocks the backend value with flush and erases the
registry entry (the returned flag records that the backend unlock was
issued); otherwise only the refcount is decremented. -/
def release_locked_value_exclusive_m (s : PState) (a : Nat) : Option (PState × Bool) :=
  match lookupA s.excl a with
  | none => none
  | some c =>
    if c = 1 then
      some ({ s with excl := eraseA s.excl a, wlocked := s.wlocked.erase a }, true)
    else some ({ s with excl := setA s.excl a (c - 1) }, false)

/-- Translation of Shard::release_pending_rename (part_009 lines
988-1023): no pending entry for the target is a silent no-op (the
out_of_range branch); otherwise the destination key is created on demand
by a write lock immediately followed by unlock (an 8-byte object, lines
996-1006; a destination that is already locked makes the lock fail,
which throws: none), the keys are swapped, the sentinel is erased and
the pending entry removed. The returned flag records that the rename was
resolved. fresh2 is the address of an on-demand created destination.
rename_finish below is the tail of release_pending_rename (lines
1008-1016): swap_keys of sentinel and destination (a failure of either
lookup throws: none), erase of the sentinel, removal of the pending
entry. -/
def rename_finish (s1 : PState) (a : Nat) (frm toKey : String) : Option (PState × Bool) :=
  match lookupA s1.slots frm, lookupA s1.slots toKey with
  | some fv, some tv =>
    some ({ s1 with
              slots := eraseA (setA (setA s1.slots frm tv) toKey fv) frm
              pend := eraseA s1.pend a },
      true)
  | _, _ => none

def release_pending_rename_m (s : PState) (a fresh2 : Nat) : Option (PState × Bool) :=
  match lookupA s.pend a with
  | none => some (s, false)
  | some (frm, toKey) =>
    match lookupA s.slots toKey with
    | none => rename_finish { s with slots := (toKey, fresh2, 8) :: s.slots } a frm toKey
    | some (ta, _) => if ta ∈ s.wlocked then none else rename_finish s a frm toKey

/-- Translation of Shard::io_response_put_release (part_009 lines
1295-1310): release the exclusive lock, then resolve the pending rename;
a Logic_exception from either (unknown target, or a rename failure)
is caught and answered with E_INVAL, leaving the remaining calls
unexecuted. The Bool result records whether the pending rename was
resolved. The deferred-action path of the main loop (lines 526-529) runs
the same two calls in the same order. -/
def io_response_put_release_m (s : PState) (a fresh2 : Nat) : PState × Status × Bool :=
  match release_locked_value_exclusive_m s a with
  | none => (s, Status.eInval, false)
  | some (s1, _) =>
    match release_pending_rename_m s1 a fresh2 with
    | none => (s1, Status.eInval, false)
    | some (s2, resolved) => (s2, Status.sOk, resolved)

/-- Every record of the exclusive-lock registry has refcount 1: the only
writers of that registry in part_009 are PUT_LOCATE and PUT_ADVANCE, and
each takes a fresh backend write lock first, so a target can never be
re-added while present (see put_excl_invariant_preserved). -/
def exclOne (s : PState) : Prop := ∀ p ∈ s.excl, p.2 = 1

/-- Every target address in the exclusive-lock registry is write-locked
in the backend (registry entries own their backend lock). -/
def exclLocked (s : PState) : Prop := ∀ p ∈ s.excl, p.1 ∈ s.wlocked

/-- Translation of Shard::add_locked_value_shared (part_009 lines
863-872): std::map::emplace inserts a fresh record only when the target
address is absent (refcount starting at 0), then increments the refcount
of the entry found at the target. An insertion attempt for a target that
is already present changes nothing but the refcount. -/
def add_locked_value_shared_m (l : List (Nat × Nat)) (a : Nat) : List (Nat × Nat) :=
  match lookupA l a with
  | some c => setA l a (c + 1)
  | none => setA l a 1

/-- Translation of Shard::release_locked_value_shared (part_009 lines
885-898): an unknown target throws Logic_exception (none); a refcount of
1 issues the single backend unlock with flush and erases the entry (flag
true); otherwise only the refcount is decremented (flag false). -/
def release_locked_value_shared_m (l : List (Nat × Nat)) (a : Nat) :
    Option (List (Nat × Nat) × Bool) :=
  match lookupA l a with
  | none => none
  | some c =>
    if c = 1 then some (eraseA l a, true)
    else some (setA l a (c - 1), false)

/-- Effect of one GET_LOCATE on the shared-lock registry (part_009 line
1176): when the backend read lock and the memory registration both
succeed, the handler calls add_locked_value_shared for the returned
target address; otherwise the registry is untouched. -/
def get_locate_registry_effect (l : List (Nat × Nat)) (a : Nat) (lockOk regOk : Bool) :
    List (Nat × Nat) :=
  if lockOk && regOk then add_locked_value_shared_m l a else l

/-- n consecutive releases of the same target address (the GET_RELEASE
path, part_009 line 1207), accumulating how many backend unlocks were
issued. none propagates a Logic_exception from any release. -/
def release_shared_seq (l : List (Nat × Nat)) (a : Nat) : Nat → Option (List (Nat × Nat) × Nat)
  | 0 => some (l, 0)
  | n + 1 =>
    match release_locked_value_shared_m l a with
    | none => none
    | some (l1, b) =>
      match release_shared_seq l1 a n with
      | none => none
      | some (l2, u) => some (l2, (if b then 1 else 0) + u)

/-- Event trace of Shard::io_response_get_locate (part_009 lines
1135-1194) as a function of whether the backend read lock succeeds
(is_locked and a non-KEY_NONE handle, lines 1151-1158) and whether the
transport memory registration succeeds (lines 1171-1182). On
registration failure the locked_key guard releases the backend lock when
the handler scope ends at line 1193, AFTER post_send_buffer at line
1189. -/
def get_locate_trace (lockOk regOk : Bool) : Status × List Ev :=
  if lockOk = false then (Status.eFail, [Ev.lockFail, Ev.post Status.eFail])
  else if regOk then
    (Status.sOk, [Ev.lockAcq, Ev.regMem, Ev.addShared, Ev.post Status.sOk])
  else (Status.eFail, [Ev.lockAcq, Ev.regFail, Ev.post Status.eFail, Ev.unlock false])

/-- Event trace of Shard::io_response_put_locate (part_009 lines
1219-1290), same conventions; a successful run inserts the exclusive
lock record and the pending rename before posting. -/
def put_locate_trace (lockOk regOk : Bool) : Status × List Ev :=
  if lockOk = false then (Status.eInval, [Ev.lockFail, Ev.post Status.eInval])
  else if regOk then
    (Status.sOk, [Ev.lockAcq, Ev.regMem, Ev.addExcl, Ev.addRename, Ev.post Status.sOk])
  else (Status.eFail, [Ev.lockAcq, Ev.regFail, Ev.post Status.eFail, Ev.unlock false])

/-- Event trace of Shard::io_response_put_advance (part_009 lines
1054-1130), with the additional length-mismatch rejection at lines
1089-1092 (lenMatch false; the guard then unlocks after the response is
posted). -/
def put_advance_trace (lockOk lenMatch regOk : Bool) : Status × List Ev :=
  if lockOk = false then (Status.eFail, [Ev.lockFail, Ev.post Status.eFail])
  else if lenMatch = false then
    (Status.eInval, [Ev.lockAcq, Ev.post Status.eInval, Ev.unlock false])
  else if regOk then
    (Status.sOk, [Ev.lockAcq, Ev.regMem, Ev.addExcl, Ev.addRename, Ev.post Status.sOk])
  else (Status.eFail, [Ev.lockAcq, Ev.regFail, Ev.post Status.eFail, Ev.unlock false])

/-- The claim predicate for C4: the backend lock is released strictly
before the failure response is posted. -/
def released_before_failure_post (tr : List Ev) : Bool :=
  occursBefore (Ev.unlock false) (Ev.post Status.eFail) tr

/-- No lock-registry or pending-rename insertion occurs in the trace. -/
def no_registry_add (tr : List Ev) : Bool :=
  tr.all (fun e => decide (e ≠ Ev.addShared) && decide (e ≠ Ev.addExcl) && decide (e ≠ Ev.addRename))

/-- Outcome of dispatching one inbound message in the main loop: normal
return, the resource_unavailable exception (part_009 lines 570-572), or
any other exception (rethrown at line 575, escaping the loop). -/
inductive HOutcome where
  | ok
  | resourceUnavailable
  | fatal
deriving DecidableEq, Repr

/-- Result of the per-session message step of one tick. -/
structure TickResult where
  queue : List Nat
  freed : List Nat
  dispatched : Option Nat
  escaped : Bool
deriving DecidableEq, Repr

/-- Translation of the per-session message handling of one tick of
Shard::main_loop (part_009 lines 541-576): peek at most ONE pending
message; dispatch it; free its buffer via pop_pending_msg only after the
handler returns normally (line 567). resource_unavailable is caught and
leaves the message on the queue; any other exception is rethrown
(escaped), also before the pop. -/
def session_tick (handle : Nat → HOutcome) (q : List Nat) : TickResult :=
  match q with
  | [] => ⟨[], [], none, false⟩
  | m :: rest =>
    match handle m with
    | HOutcome.ok => ⟨rest, [m], some m, false⟩
    | HOutcome.resourceUnavailable => ⟨m :: rest, [], some m, false⟩
    | HOutcome.fatal => ⟨m :: rest, [], some m, true⟩

/-- Inline-fit test of Shard::io_response_get (part_009 line 1417): not
marked direct and value length strictly below TWO_STAGE_THRESHOLD. The
threshold value is a constant from a header outside src and is passed as
the thr parameter. -/
def get_fits_inline (direct : Bool) (vlen thr : Nat) : Bool :=
  !direct && decide (vlen < thr)

/-- Two-buffer-fit test of Shard::io_response_get (part_009 line 1461):
not marked direct and value length at most the send-buffer capacity
minus the base message size. -/
def get_fits_twobuf (direct : Bool) (vlen cap base : Nat) : Bool :=
  !direct && decide (vlen ≤ cap - base)

/-- Translation of Shard::io_response_get (part_009 lines 1360-1482) to
a status and an event trace. Parameters: isScbe the short-circuit flag;
lockRc the backend read-lock status and keyNone whether it returned
KEY_NONE (failure answers with the lock status itself, line 1383); vlen
the stored value length; direct the request direct flag; thr the
TWO_STAGE_THRESHOLD; clientLen the client-supplied buffer length
msg get_value_len; cap and base the send-buffer capacity and base
message size; regOk whether memory registration succeeds. Branches in
source order: inline copy with immediate flush-unlock before the post
(lines 1417-1433); client buffer too small: plain unlock then
E_INSUFFICIENT_SPACE (lines 1439-1444); registration, shared-lock
insertion, then either the paired post or E_TOO_LARGE (lines 1446-1470);
registration failure: E_FAIL posted, guard unlocks at scope end
(lines 1472-1476). -/
def io_response_get (isScbe : Bool) (lockRc : Status) (keyNone : Bool) (vlen : Nat)
    (direct : Bool) (thr clientLen cap base : Nat) (regOk : Bool) : Status × List Ev :=
  if isScbe then (Status.sOk, [Ev.post Status.sOk])
  else if !(is_locked lockRc) || keyNone then (lockRc, [Ev.lockFail, Ev.post lockRc])
  else if get_fits_inline direct vlen thr then
    (Status.sOk, [Ev.lockAcq, Ev.copyInline, Ev.unlock true, Ev.post Status.sOk])
  else if decide (clientLen < vlen) then
    (Status.eInsufficientSpace,
      [Ev.lockAcq, Ev.unlock false, Ev.post Status.eInsufficientSpace])
  else if regOk then
    if get_fits_twobuf direct vlen cap base then
      (Status.sOk, [Ev.lockAcq, Ev.regMem, Ev.addShared, Ev.post2])
    else (Status.eTooLarge, [Ev.lockAcq, Ev.regMem, Ev.addShared, Ev.post Status.eTooLarge])
  else (Status.eFail, [Ev.lockAcq, Ev.regFail, Ev.post Status.eFail, Ev.unlock false])

/-- Modelled from the spec: IKVStore::POOL_ERROR, the distinguished
invalid pool handle (section 7 names the POOL_ERROR kind). Its numeric
value lives in a backend header that is not part of src; the claims only
need it to be a fixed value distinct from valid handles. -/
def POOL_ERROR : Nat := 2 ^ 64 - 1

/-- Modelled from the spec: the per-session Pool_manager table (section
4.3), a name-to-(handle, refcount) map; register_pool initializes the
refcount to 1, add_reference increments it, check_for_open_pool is a
name lookup. The Pool_manager implementation is not part of src; only
its call sites in part_009 are. -/
abbrev PoolMgr : Type := List (String × Nat × Nat)

/-- Result of one POOL request: the new pool table, the response status,
the response pool_id field, and whether the backend create/open was
invoked. -/
structure PoolOpResult where
  pm : PoolMgr
  status : Status
  poolId : Nat
  backendCalled : Bool
deriving DecidableEq, Repr

/-- Translation of the OP_CREATE arm of
Shard::process_message_pool_request (part_009 lines 644-710). The
response buffer is zeroed before the response is constructed (line 631)
and the Message_pool_response constructor receives only the auth id, so
every field not assigned by the handler stays 0; in particular, in the
already-open non-create-only branch (line 663) the handler calls only
add_reference and never assigns response pool_id, which therefore
remains 0. backendNew is the result of a backend create_pool (none for
POOL_ERROR). -/
def op_create_m (pm : PoolMgr) (name : String) (createOnly : Bool)
    (backendNew : Option Nat) : PoolOpResult :=
  match lookupA pm name with
  | some (h, c) =>
    if createOnly then ⟨pm, Status.eFail, POOL_ERROR, false⟩
    else ⟨setA pm name (h, c + 1), Status.sOk, 0, false⟩
  | none =>
    match backendNew with
    | none => ⟨pm, Status.ePoolError, 0, true⟩
    | some h => ⟨(name, h, 1) :: pm, Status.sOk, h, true⟩

/-- Translation of the OP_OPEN arm of
Shard::process_message_pool_request (part_009 lines 711-745): an
already-open pool only gets its reference count incremented, its handle
is written to the response, and the backend open_pool is NOT called;
otherwise the backend is asked to open the pool. -/
def op_open_m (pm : PoolMgr) (name : String) (backendOpen : Option Nat) : PoolOpResult :=
  match lookupA pm name with
  | some (h, c) => ⟨setA pm name (h, c + 1), Status.sOk, h, false⟩
  | none =>
    match backendOpen with
    | none => ⟨pm, Status.eInval, 0, true⟩
    | some h => ⟨(name, h, 1) :: pm, Status.sOk, h, true⟩

/-- Result of one ADO_REQUEST handled on the CREATE_ONLY path: response
status, resulting store, whether a work request was sent to the ADO
process, and the event trace. -/
structure AdoResult where
  status : Status
  kv : List (String × List Nat)
  adoInvoked : Bool
  events : List Ev
deriving DecidableEq, Repr

/-- Translation of the ADO_FLAG_CREATE_ONLY branch of
Shard::process_ado_request (part_009 lines 2394-2437): get_attribute
VALUE_LEN returning anything other than E_KEY_NOT_FOUND means the key
exists, which is answered with E_ALREADY_EXISTS and no state change
(lines 2397-2403); otherwise the pair is created by a write lock of the
requested on-demand length, zero-filled by pmem_memset (line 2419),
unlocked (line 2422), and the value address is returned with S_OK; no
work request is ever sent to the ADO on this path. The store maps each
key to its value bytes. -/
def ado_request_create_only (kv : List (String × List Nat)) (key : String) (n : Nat) :
    AdoResult :=
  match lookupA kv key with
  | some _ => ⟨Status.eAlreadyExists, kv, false, [Ev.post Status.eAlreadyExists]⟩
  | none =>
    ⟨Status.sOk, (key, List.replicate n 0) :: kv, false,
      [Ev.lockAcq, Ev.zeroFill, Ev.unlock false, Ev.post Status.sOk]⟩

theorem lookupA_mem {κ α : Type} [DecidableEq κ] {l : List (κ × α)} {q : κ} {v : α}
    (h : lookupA l q = some v) : (q, v) ∈ l := by
  induction l with
  | nil => simp [lookupA] at h
  | cons p l ih =>
    obtain ⟨k, w⟩ := p
    by_cases hq : q = k
    · subst hq
      simp [lookupA] at h
      simp [h]
    · simp [lookupA, hq] at h
      exact List.mem_cons_of_mem _ (ih h)

theorem lookupA_setA_self {κ α : Type} [DecidableEq κ] (l : List (κ × α)) (q : κ) (v : α) :
    lookupA (setA l q v) q = some v := by
  induction l with
  | nil => simp [setA, lookupA]
  | cons p l ih =>
    obtain ⟨k, w⟩ := p
    by_cases hq : q = k
    · subst hq; simp [setA, lookupA]
    · simp [setA, lookupA, hq, ih]

theorem lookupA_setA_ne {κ α : Type} [DecidableEq κ] (l : List (κ × α)) (q r : κ) (v : α)
    (h : r ≠ q) : lookupA (setA l q v) r = lookupA l r := by
  induction l with
  | nil => simp [setA, lookupA, h]
  | cons p l ih =>
    obtain ⟨k, w⟩ := p
    by_cases hq : q = k
    · subst hq
      simp [setA, lookupA, h]
    · by_cases hr : r = k
      · subst hr; simp [setA, lookupA, hq, Ne.symm h]
      · simp [setA, lookupA, hq, hr, ih]

theorem eraseA_setA {κ α : Type} [DecidableEq κ] (l : List (κ × α)) (q : κ) (v : α) :
    eraseA (setA l q v) q = eraseA l q := by
  induction l with
  | nil => simp [setA, eraseA]
  | cons p l ih =>
    obtain ⟨k, w⟩ := p
    by_cases hq : q = k
    · subst hq; simp [setA, eraseA]
    · simp [setA, eraseA, hq, ih]

theorem setA_of_lookupA_none {κ α : Type} [DecidableEq κ] (l : List (κ × α)) (q : κ) (v : α)
    (h : lookupA l q = none) : setA l q v = l ++ [(q, v)] := by
  induction l with
  | nil => simp [setA]
  | cons p l ih =>
    obtain ⟨k, w⟩ := p
    by_cases hq : q = k
    · subst hq; simp [lookupA] at h
    · simp [lookupA, hq] at h
      simp [setA, hq, ih h]

theorem lookupA_eq_none {κ α : Type} [DecidableEq κ] (l : List (κ × α)) (q : κ) :
    lookupA l q = none ↔ q ∉ l.map Prod.fst := by
  induction l with
  | nil => simp [lookupA]
  | cons p l ih =>
    obtain ⟨k, w⟩ := p
    by_cases hq : q = k
    · subst hq; simp [lookupA]
    · simp [lookupA, hq, ih]

theorem map_fst_setA {κ α : Type} [DecidableEq κ] (l : List (κ × α)) (q : κ) (v : α) :
    (setA l q v).map Prod.fst =
      if (lookupA l q).isSome then l.map Prod.fst else l.map Prod.fst ++ [q] := by
  induction l with
  | nil => simp [setA, lookupA]
  | cons p l ih =>
    obtain ⟨k, w⟩ := p
    by_cases hq : q = k
    · subst hq; simp [setA, lookupA]
    · cases he : lookupA l q with
      | none => simp [setA, lookupA, hq, ih, he]
      | some u => simp [setA, lookupA, hq, ih, he]

theorem nodupKeys_setA {κ α : Type} [DecidableEq κ] (l : List (κ × α)) (q : κ) (v : α)
    (h : nodupKeys l) : nodupKeys (setA l q v) := by
  unfold nodupKeys
  rw [map_fst_setA]
  cases he : lookupA l q with
  | some u => simpa using h
  | none =>
    have hq : q ∉ l.map Prod.fst := (lookupA_eq_none l q).1 he
    unfold nodupKeys at h
    simp [List.nodup_append, h, hq]

theorem lookupA_eraseA_self {κ α : Type} [DecidableEq κ] (l : List (κ × α)) (q : κ)
    (h : nodupKeys l) : lookupA (eraseA l q) q = none := by
  induction l with
  | nil => simp [eraseA, lookupA]
  | cons p l ih =>
    obtain ⟨k, w⟩ := p
    simp [nodupKeys] at h
    by_cases hq : q = k
    · subst hq
      simp [eraseA]
      cases he : lookupA l q with
      | none => rfl
      | some v =>
        exact absurd (List.mem_map_of_mem Prod.fst (lookupA_mem he)) (by simpa using h.1)
    · simp [eraseA, lookupA, hq]
      exact ih h.2

/-- C1: the claim states that LOCATE(offset, size) emits one iovec per
spanned region, with the listed first/last bounds, lengths summing to
size minus excess_length and every byte inside a real region. Evaluating
the translated source on two 8 MiB regions at realistic virtual
addresses with LOCATE(0, 16 MiB) (the literal scenario 3 of the spec):
both std::upper_bound comparators compare the pool-relative offset
against the region BASE ADDRESS instead of the cumulative boundary that
region_breaks builds, so both iterators land on region 0 and the code
emits a single iovec of 8 MiB confined to region 0 with excess_length
8 MiB, although two regions are spanned and the request ends exactly at
the pool boundary. The code therefore contradicts the claim (and spec
scenario 3, which requires two 8 MiB entries). -/
theorem c1_sg_list_spanned_region_fails :
    offset_to_sg_list (0, 0x1000000) (region_breaks c1_regions) =
      some { sg_list := [⟨0x700000000000, 0x800000⟩]
             mr_low := 0x700000000000
             mr_high := 0x700000800000
             excess_length := 0x800000 }
    ∧ spanned_region_count c1_regions 0 0x1000000 = 2
    ∧ (offset_to_sg_list (0, 0x1000000) (region_breaks c1_regions)).map
        (fun r => r.sg_list.length) ≠
        some (spanned_region_count c1_regions 0 0x1000000) := by
  refine ⟨by decide, by decide, by decide⟩

/-- C4, counterexample: the claim requires the backend lock to be
released BEFORE the failure response is posted when memory registration
throws. In the translated GET_LOCATE handler with a successful lock and
a failing registration, the unlock is the last event, after the post:
the locked_key guard only runs at the end of the handler scope
(part_009 line 1193), after post_send_buffer (line 1189). -/
theorem c4_release_before_post_counterexample :
    (get_locate_trace true false).2 =
      [Ev.lockAcq, Ev.regFail, Ev.post Status.eFail, Ev.unlock false]
    ∧ Ev.unlock false ∈ (get_locate_trace true false).2
    ∧ released_before_failure_post (get_locate_trace true false).2 = false := by
  refine ⟨by decide, by decide, by decide⟩

/-- C4, amended: for every locate/advance handler (PUT_LOCATE,
PUT_ADVANCE, GET_LOCATE) in which memory registration throws after the
backend lock has been acquired, the backend lock is released exactly
once, AFTER the failure response is posted but before the handler
returns, and no entry is added to the lock registries or the
pending-rename registry. -/
theorem c4_registration_failure_releases_lock :
    (get_locate_trace true false).2 =
      [Ev.lockAcq, Ev.regFail, Ev.post Status.eFail, Ev.unlock false]
    ∧ put_locate_trace true false =
      (Status.eFail, [Ev.lockAcq, Ev.regFail, Ev.post Status.eFail, Ev.unlock false])
    ∧ put_advance_trace true true false =
      (Status.eFail, [Ev.lockAcq, Ev.regFail, Ev.post Status.eFail, Ev.unlock false])
    ∧ no_registry_add (get_locate_trace true false).2 = true
    ∧ no_registry_add (put_locate_trace true false).2 = true
    ∧ no_registry_add (put_advance_trace true true false).2 = true
    ∧ occursBefore (Ev.post Status.eFail) (Ev.unlock false) (get_locate_trace true false).2 = true
    ∧ occursBefore (Ev.post Status.eFail) (Ev.unlock false) (put_locate_trace true false).2 = true
    ∧ occursBefore (Ev.post Status.eFail) (Ev.unlock false) (put_advance_trace true true false).2
        = true
    ∧ ((get_locate_trace true false).2.count (Ev.unlock false) = 1)
    ∧ ((put_locate_trace true false).2.count (Ev.unlock false) = 1)
    ∧ ((put_advance_trace true true false).2.count (Ev.unlock false) = 1) := by
  decide

/-- C5: on each tick at most one pending inbound message per session is
dispatched (the freed list has at most one element and dispatched is a
single Option); when the handler throws resource-unavailable the message
is not consumed, the whole tick result leaves the queue unchanged, and
the next tick dispatches the same message again; a buffer is freed only
for a message whose handler returned normally. -/
theorem c5_tick_backpressure (handle : Nat → HOutcome) (m : Nat) (rest : List Nat) :
    (session_tick handle (m :: rest)).freed.length ≤ 1
    ∧ (session_tick handle (m :: rest)).dispatched = some m
    ∧ (handle m = HOutcome.resourceUnavailable →
        session_tick handle (m :: rest) = ⟨m :: rest, [], some m, false⟩
        ∧ (session_tick handle (session_tick handle (m :: rest)).queue).dispatched = some m)
    ∧ (∀ x, x ∈ (session_tick handle (m :: rest)).freed → handle x = HOutcome.ok) := by
  cases h : handle m <;> simp [session_tick, h]

/-- C5 witness: a concrete handler that is short of send buffers for
message 0 and succeeds on message 1, applied to the queue [0, 1]. -/
theorem c5_tick_backpressure_witness :
    ((fun x => if x = 0 then HOutcome.resourceUnavailable else HOutcome.ok) 0 =
        HOutcome.resourceUnavailable →
      session_tick (fun x => if x = 0 then HOutcome.resourceUnavailable else HOutcome.ok) [0, 1] =
          ⟨[0, 1], [], some 0, false⟩
      ∧ (session_tick (fun x => if x = 0 then HOutcome.resourceUnavailable else HOutcome.ok)
          (session_tick (fun x => if x = 0 then HOutcome.resourceUnavailable else HOutcome.ok)
            [0, 1]).queue).dispatched = some 0) :=
  (c5_tick_backpressure (fun x => if x = 0 then HOutcome.resourceUnavailable else HOutcome.ok)
    0 [1]).2.2.1

/-- C6, counterexample: the claim states that a GET whose value fits
neither inline nor as a two-buffer response is answered with
E_TOO_LARGE. A direct GET of an existing 100-byte value with a 10-byte
client buffer fits neither, yet the code answers E_INSUFFICIENT_SPACE:
the client-buffer check at part_009 lines 1437-1444 runs before the
response-shape selection. -/
theorem c6_too_large_counterexample :
    get_fits_inline true 100 50 = false
    ∧ get_fits_twobuf true 100 1000 100 = false
    ∧ (io_response_get false Status.sOk false 100 true 50 10 1000 100 true).1 =
        Status.eInsufficientSpace
    ∧ Status.eInsufficientSpace ≠ Status.eTooLarge := by
  refine ⟨by decide, by decide, by decide, by decide⟩

/-- C6, amended: for every GET of an existing key, (a) a value below
TWO_STAGE_THRESHOLD on a non-direct request is copied into the response
buffer and the backend read lock is released with flush before the
response is posted; (b) when the value fits neither inline nor as a
two-buffer response, the client-supplied buffer is at least the value
length, and memory registration succeeds, the shard replies E_TOO_LARGE
(directing the client to GET_LOCATE); a client buffer smaller than the
value is instead answered with E_INSUFFICIENT_SPACE. -/
theorem c6_get_inline_and_too_large (lockRc : Status) (vlen thr clientLen cap base : Nat)
    (direct regOk : Bool) (hl : is_locked lockRc = true) :
    (vlen < thr →
      io_response_get false lockRc false vlen false thr clientLen cap base regOk =
        (Status.sOk, [Ev.lockAcq, Ev.copyInline, Ev.unlock true, Ev.post Status.sOk]))
    ∧ (get_fits_inline direct vlen thr = false →
       get_fits_twobuf direct vlen cap base = false →
       vlen ≤ clientLen → regOk = true →
       io_response_get false lockRc false vlen direct thr clientLen cap base regOk =
         (Status.eTooLarge, [Ev.lockAcq, Ev.regMem, Ev.addShared, Ev.post Status.eTooLarge])) := by
  constructor
  · intro hv
    simp [io_response_get, hl, get_fits_inline, hv]
  · intro hfi hft hcl hreg
    subst hreg
    simp [io_response_get, hl, hfi, hft, Nat.not_lt.mpr hcl]

/-- C6 witness: the amended statement applied to a 100-byte value with
threshold 128 for the inline part, and to a direct GET of a 5000-byte
value with send-buffer capacity 4096 and a sufficient client buffer for
the E_TOO_LARGE part. -/
theorem c6_get_inline_and_too_large_witness :
    (io_response_get false Status.sOk false 100 false 128 100 4096 128 true =
      (Status.sOk, [Ev.lockAcq, Ev.copyInline, Ev.unlock true, Ev.post Status.sOk]))
    ∧ (io_response_get false Status.sOk false 5000 true 128 8192 4096 128 true =
      (Status.eTooLarge, [Ev.lockAcq, Ev.regMem, Ev.addShared, Ev.post Status.eTooLarge])) :=
  ⟨(c6_get_inline_and_too_large Status.sOk 100 128 100 4096 128 false true (by decide)).1
      (by decide),
    (c6_get_inline_and_too_large Status.sOk 5000 128 8192 4096 128 true true (by decide)).2
      (by decide) (by decide) (by decide) rfl⟩

/-- C10: every GET of an existing key that takes the two-stage path
(direct flag set or value length at least TWO_STAGE_THRESHOLD, that is,
the inline fit fails) with a client-supplied buffer smaller than the
stored value is answered with E_INSUFFICIENT_SPACE; the backend read
lock is released before the response is posted and no shared-lock
registry entry is added. -/
theorem c10_two_stage_insufficient_space (lockRc : Status) (vlen thr clientLen cap base : Nat)
    (direct regOk : Bool) (hl : is_locked lockRc = true)
    (hfit : get_fits_inline direct vlen thr = false) (hlen : clientLen < vlen) :
    io_response_get false lockRc false vlen direct thr clientLen cap base regOk =
      (Status.eInsufficientSpace,
        [Ev.lockAcq, Ev.unlock false, Ev.post Status.eInsufficientSpace])
    ∧ Ev.addShared ∉
        (io_response_get false lockRc false vlen direct thr clientLen cap base regOk).2
    ∧ occursBefore (Ev.unlock false) (Ev.post Status.eInsufficientSpace)
        (io_response_get false lockRc false vlen direct thr clientLen cap base regOk).2 = true := by
  have h : io_response_get false lockRc false vlen direct thr clientLen cap base regOk =
      (Status.eInsufficientSpace,
        [Ev.lockAcq, Ev.unlock false, Ev.post Status.eInsufficientSpace]) := by
    simp [io_response_get, hl, hfit, hlen]
  refine ⟨h, ?_, ?_⟩
  · rw [h]; decide
  · rw [h]; decide

/-- C10 witness: a direct GET of an existing 5000-byte value with a
4000-byte client buffer. -/
theorem c10_two_stage_insufficient_space_witness :
    io_response_get false Status.sOk false 5000 true 128 4000 4096 128 true =
      (Status.eInsufficientSpace,
        [Ev.lockAcq, Ev.unlock false, Ev.post Status.eInsufficientSpace]) :=
  (c10_two_stage_insufficient_space Status.sOk 5000 128 4000 4096 128 true true
    (by decide) (by decide) (by decide)).1

/-- C7, counterexample: the claim states that for PUT_ADVANCE and
PUT_LOCATE an existing sentinel slot whose length differs from the
requested length makes the request fail with no registry insertion.
For PUT_LOCATE of key k announcing 32 bytes over an existing unlocked
sentinel slot of 16 bytes, the translated handler succeeds and inserts
both the exclusive-lock record and the pending rename: the source of
io_response_put_locate has no length comparison (io_response_put_advance
has one at part_009 lines 1089-1092; lines 1233-1259 do not). -/
theorem c7_put_locate_no_length_check_counterexample :
    (put_locate_step ⟨[("___pending_k", 5, 16)], [], [], []⟩ "k" 32 99 false true).2 =
      Status.sOk
    ∧ (put_locate_step ⟨[("___pending_k", 5, 16)], [], [], []⟩ "k" 32 99 false true).1.excl =
        [(5, 1)]
    ∧ (put_locate_step ⟨[("___pending_k", 5, 16)], [], [], []⟩ "k" 32 99 false true).1.pend =
        [(5, "___pending_k", "k")] := by
  refine ⟨by decide, by decide, by decide⟩

/-- C7, amended: both PUT_ADVANCE and PUT_LOCATE write-lock the sentinel
key ___pending_(k), creating (if absent) a slot of the requested length
and, when registration succeeds, inserting the exclusive-lock and
pending-rename records. PUT_ADVANCE rejects an existing slot whose
length differs from the request with E_INVAL, leaving the state (both
registries and the backend) unchanged; PUT_LOCATE performs no length
check and accepts the existing slot with its existing length. -/
theorem c7_pending_sentinel_length_check (s : PState) (key : String) (vlen fresh : Nat) :
    (lookupA s.slots (pendingTag ++ key) = none →
      put_advance_step s key vlen fresh false true =
        (⟨(pendingTag ++ key, fresh, vlen) :: s.slots, fresh :: s.wlocked,
            add_locked_value_exclusive_m s.excl fresh,
            (fresh, pendingTag ++ key, key) :: s.pend⟩, Status.sOk))
    ∧ (∀ a l, lookupA s.slots (pendingTag ++ key) = some (a, l) → a ∉ s.wlocked → l ≠ vlen →
        put_advance_step s key vlen fresh false true = (s, Status.eInval)
        ∧ put_locate_step s key vlen fresh false true =
            (⟨s.slots, a :: s.wlocked, add_locked_value_exclusive_m s.excl a,
                (a, pendingTag ++ key, key) :: s.pend⟩, Status.sOk)) := by
  constructor
  · intro h
    simp [put_advance_step, kv_lock_write, h, is_locked]
  · intro a l hs hw hne
    constructor
    · simp [put_advance_step, kv_lock_write, hs, hw, is_locked, hne, kv_unlock,
        List.erase_cons_head]
    · simp [put_locate_step, kv_lock_write, hs, hw, is_locked]

/-- C7 witness: the creation branch on an empty state, and the
length-mismatch branch over an existing 16-byte sentinel slot with a
32-byte request. -/
theorem c7_pending_sentinel_length_check_witness :
    (put_advance_step ⟨[], [], [], []⟩ "k" 32 99 false true =
      (⟨[(pendingTag ++ "k", 99, 32)], [99],
          add_locked_value_exclusive_m [] 99, [(99, pendingTag ++ "k", "k")]⟩, Status.sOk))
    ∧ put_advance_step ⟨[("___pending_k", 5, 16)], [], [], []⟩ "k" 32 99 false true =
        (⟨[("___pending_k", 5, 16)], [], [], []⟩, Status.eInval) :=
  ⟨(c7_pending_sentinel_length_check ⟨[], [], [], []⟩ "k" 32 99).1 (by decide),
    ((c7_pending_sentinel_length_check ⟨[("___pending_k", 5, 16)], [], [], []⟩ "k" 32 99).2
      5 16 (by decide) (by decide) (by decide)).1⟩

/-- C8, counterexample: the claim states that POOL CREATE over an
already-open pool without the create-only flag increments the reference
count AND returns the existing handle. Over a session where pool p is
open with handle 7, the translated OP_CREATE increments the refcount to
2 but the response pool_id field stays 0 (the zeroed buffer value): the
already-open branch of the source (part_009 line 663) never assigns
response pool_id. -/
theorem c8_create_over_open_pool_counterexample :
    op_create_m [("p", 7, 1)] "p" false none = ⟨[("p", 7, 2)], Status.sOk, 0, false⟩
    ∧ (op_create_m [("p", 7, 1)] "p" false none).poolId ≠ 7 := by
  refine ⟨by decide, by decide⟩

/-- C8, amended: for POOL CREATE naming a pool already open in the
session, the create-only flag makes the request fail with E_FAIL and a
POOL_ERROR pool id and leaves the table unchanged; otherwise the
reference count is incremented and S_OK returned, but the response pool
id field keeps its zero-initialized value (the handle is not copied into
the response). A POOL OPEN of an already-open pool increments the
reference count, returns the handle, and does not open the backend pool
again. -/
theorem c8_pool_create_open_refcount (pm : PoolMgr) (name : String) (h c : Nat)
    (backendRes : Option Nat) (hp : lookupA pm name = some (h, c)) :
    op_create_m pm name true backendRes = ⟨pm, Status.eFail, POOL_ERROR, false⟩
    ∧ op_create_m pm name false backendRes = ⟨setA pm name (h, c + 1), Status.sOk, 0, false⟩
    ∧ op_open_m pm name backendRes = ⟨setA pm name (h, c + 1), Status.sOk, h, false⟩
    ∧ lookupA (op_create_m pm name false backendRes).pm name = some (h, c + 1)
    ∧ lookupA (op_open_m pm name backendRes).pm name = some (h, c + 1) := by
  simp [op_create_m, op_open_m, hp, lookupA_setA_self]

/-- C8 witness: the amended statement applied to a session with pool p
open under handle 7 and refcount 1. -/
theorem c8_pool_create_open_refcount_witness :
    op_create_m [("p", 7, 1)] "p" true none = ⟨[("p", 7, 1)], Status.eFail, POOL_ERROR, false⟩
    ∧ op_open_m [("p", 7, 1)] "p" none = ⟨setA [("p", 7, 1)] "p" (7, 2), Status.sOk, 7, false⟩ :=
  ⟨(c8_pool_create_open_refcount [("p", 7, 1)] "p" 7 1 none (by decide)).1,
    (c8_pool_create_open_refcount [("p", 7, 1)] "p" 7 1 none (by decide)).2.2.1⟩

/-- C9: issuing ADO_REQUEST with CREATE_ONLY twice for the same key:
the first call returns OK, creates the value as n zero bytes, unlocks it
before the response is posted and sends no work request to the ADO; the
second call returns ALREADY_EXISTS, leaves the store unchanged and again
sends nothing to the ADO. -/
theorem c9_ado_create_only_twice (kv : List (String × List Nat)) (key : String) (n n2 : Nat)
    (h : lookupA kv key = none) :
    (ado_request_create_only kv key n).status = Status.sOk
    ∧ (ado_request_create_only kv key n).kv = (key, List.replicate n 0) :: kv
    ∧ (ado_request_create_only kv key n).adoInvoked = false
    ∧ occursBefore (Ev.unlock false) (Ev.post Status.sOk)
        (ado_request_create_only kv key n).events = true
    ∧ (ado_request_create_only (ado_request_create_only kv key n).kv key n2).status =
        Status.eAlreadyExists
    ∧ (ado_request_create_only (ado_request_create_only kv key n).kv key n2).kv =
        (ado_request_create_only kv key n).kv
    ∧ (ado_request_create_only (ado_request_create_only kv key n).kv key n2).adoInvoked =
        false := by
  simp [ado_request_create_only, h, lookupA, occursBefore]

/-- C9 witness: CREATE_ONLY twice for key k with on-demand length 4 over
an empty store. -/
theorem c9_ado_create_only_twice_witness :
    (ado_request_create_only [] "k" 4).status = Status.sOk
    ∧ (ado_request_create_only [] "k" 4).kv = [("k", List.replicate 4 0)]
    ∧ (ado_request_create_only [] "k" 4).adoInvoked = false
    ∧ occursBefore (Ev.unlock false) (Ev.post Status.sOk)
        (ado_request_create_only [] "k" 4).events = true
    ∧ (ado_request_create_only (ado_request_create_only [] "k" 4).kv "k" 9).status =
        Status.eAlreadyExists
    ∧ (ado_request_create_only (ado_request_create_only [] "k" 4).kv "k" 9).kv =
        (ado_request_create_only [] "k" 4).kv
    ∧ (ado_request_create_only (ado_request_create_only [] "k" 4).kv "k" 9).adoInvoked =
        false :=
  c9_ado_create_only_twice [] "k" 4 9 (by decide)

theorem rename_finish_fields (s1 : PState) (a : Nat) (frm toKey : String)
    (r : PState × Bool) (h : rename_finish s1 a frm toKey = some r) :
    r.1.excl = s1.excl ∧ r.1.wlocked = s1.wlocked ∧ r.2 = true := by
  unfold rename_finish at h
  split at h
  · cases h
    exact ⟨rfl, rfl, rfl⟩
  · cases h

theorem release_pending_rename_m_fields (s : PState) (a fresh2 : Nat) (r : PState × Bool)
    (h : release_pending_rename_m s a fresh2 = some r) :
    r.1.excl = s.excl ∧ r.1.wlocked = s.wlocked
    ∧ (r.2 = true → lookupA s.pend a ≠ none) := by
  unfold release_pending_rename_m at h
  split at h
  · cases h
    simp
  · rename_i frm toKey heq
    have hp : lookupA s.pend a ≠ none := by simp [heq]
    split at h
    · have := rename_finish_fields _ _ _ _ _ h
      exact ⟨this.1, this.2.1, fun _ => hp⟩
    · split at h
      · cases h
      · have := rename_finish_fields _ _ _ _ _ h
        exact ⟨this.1, this.2.1, fun _ => hp⟩

/-- C2: for every PUT_RELEASE, a target address that is absent from the
exclusive-lock registry (released out of order) is answered with E_INVAL
with both the lock and pending-rename registries unchanged; and whenever
the handler resolves the pending rename, the exclusive-lock refcount for
that address has reached zero (the registry entry is gone) and a pending
rename existed. The hypotheses nodupKeys and exclOne hold in every
reachable state: the only insertions into the exclusive registry are
PUT_LOCATE and PUT_ADVANCE, which first take a fresh backend write lock
(see put_excl_invariant_preserved and put_release_invariant_preserved). -/
theorem c2_put_release_rename_ordering (s : PState) (a fresh2 : Nat)
    (hn : nodupKeys s.excl) (h1 : exclOne s) :
    (lookupA s.excl a = none →
      io_response_put_release_m s a fresh2 = (s, Status.eInval, false))
    ∧ ((io_response_put_release_m s a fresh2).2.2 = true →
        lookupA (io_response_put_release_m s a fresh2).1.excl a = none
        ∧ lookupA s.pend a ≠ none) := by
  constructor
  · intro he
    simp [io_response_put_release_m, release_locked_value_exclusive_m, he]
  · intro hres
    cases he : lookupA s.excl a with
    | none =>
      have hstep : io_response_put_release_m s a fresh2 = (s, Status.eInval, false) := by
        simp [io_response_put_release_m, release_locked_value_exclusive_m, he]
      rw [hstep] at hres
      simp at hres
    | some c =>
      have hc : c = 1 := h1 (a, c) (lookupA_mem he)
      subst hc
      have hrel : release_locked_value_exclusive_m s a =
          some ({ s with excl := eraseA s.excl a, wlocked := s.wlocked.erase a }, true) := by
        simp [release_locked_value_exclusive_m, he]
      cases hrp : release_pending_rename_m
          { s with excl := eraseA s.excl a, wlocked := s.wlocked.erase a } a fresh2 with
      | none =>
        have hstep : io_response_put_release_m s a fresh2 =
            ({ s with excl := eraseA s.excl a, wlocked := s.wlocked.erase a },
              Status.eInval, false) := by
          rw [io_response_put_release_m, hrel]
          dsimp only
          rw [hrp]
        rw [hstep] at hres
        simp at hres
      | some r =>
        obtain ⟨s2, resolved⟩ := r
        have hstep : io_response_put_release_m s a fresh2 = (s2, Status.sOk, resolved) := by
          rw [io_response_put_release_m, hrel]
          dsimp only
          rw [hrp]
        rw [hstep] at hres ⊢
        have hfields := release_pending_rename_m_fields _ _ _ _ hrp
        exact ⟨by rw [hfields.1]; exact lookupA_eraseA_self _ _ hn, hfields.2.2 hres⟩

/-- C2 witness: a state holding the exclusive lock for target 100
(refcount 1) and its pending rename; the release resolves the rename and
the exclusive entry is gone. -/
theorem c2_put_release_rename_ordering_witness :
    nodupKeys (PState.excl ⟨[("___pending_k", 100, 16)], [100], [(100, 1)],
        [(100, "___pending_k", "k")]⟩)
    ∧ exclOne ⟨[("___pending_k", 100, 16)], [100], [(100, 1)], [(100, "___pending_k", "k")]⟩
    ∧ (lookupA (io_response_put_release_m
          ⟨[("___pending_k", 100, 16)], [100], [(100, 1)], [(100, "___pending_k", "k")]⟩
          100 200).1.excl 100 = none
        ∧ lookupA (PState.pend ⟨[("___pending_k", 100, 16)], [100], [(100, 1)],
            [(100, "___pending_k", "k")]⟩) 100 ≠ none) :=
  ⟨by unfold nodupKeys; decide, by unfold exclOne; decide,
    (c2_put_release_rename_ordering
        ⟨[("___pending_k", 100, 16)], [100], [(100, 1)], [(100, "___pending_k", "k")]⟩
        100 200 (by unfold nodupKeys; decide) (by unfold exclOne; decide)).2 (by decide)⟩

theorem mem_eraseA_sub {κ α : Type} [DecidableEq κ] {l : List (κ × α)} {q : κ}
    {p : κ × α} (h : p ∈ eraseA l q) : p ∈ l := by
  induction l with
  | nil => simp [eraseA] at h
  | cons e l ih =>
    obtain ⟨k, w⟩ := e
    by_cases hq : q = k
    · subst hq
      simp [eraseA] at h
      exact List.mem_cons_of_mem _ h
    · simp [eraseA, hq] at h
      rcases h with h | h
      · simp [h]
      · exact List.mem_cons_of_mem _ (ih h)

theorem nodupKeys_eraseA {κ α : Type} [DecidableEq κ] {l : List (κ × α)} (q : κ)
    (h : nodupKeys l) : nodupKeys (eraseA l q) := by
  induction l with
  | nil => simpa [eraseA] using h
  | cons e l ih =>
    obtain ⟨k, w⟩ := e
    simp [nodupKeys] at h
    by_cases hq : q = k
    · subst hq
      simpa [eraseA, nodupKeys] using h.2
    · have hk : k ∉ (eraseA l q).map Prod.fst := by
        intro hk
        rcases List.mem_map.mp hk with ⟨p, hp, hfst⟩
        refine h.1 p.2 ?_
        rw [← hfst]
        exact mem_eraseA_sub hp
      unfold nodupKeys
      simp [eraseA, hq, hk]
      exact ih h.2

theorem fst_ne_of_mem_eraseA {κ α : Type} [DecidableEq κ] {l : List (κ × α)} {q : κ}
    {p : κ × α} (hn : nodupKeys l) (h : p ∈ eraseA l q) : p.1 ≠ q := by
  induction l with
  | nil => simp [eraseA] at h
  | cons e l ih =>
    obtain ⟨k, w⟩ := e
    simp [nodupKeys] at hn
    by_cases hq : q = k
    · subst hq
      simp [eraseA] at h
      intro hfst
      refine hn.1 p.2 ?_
      rw [← hfst]
      exact h
    · simp [eraseA, hq] at h
      rcases h with h | h
      · subst h
        simpa using Ne.symm hq
      · exact ih hn.2 h

theorem add_excl_inv (excl : List (Nat × Nat)) (wl : List Nat) (a : Nat)
    (hn : nodupKeys excl) (h1 : ∀ p ∈ excl, p.2 = 1) (h2 : ∀ p ∈ excl, p.1 ∈ wl)
    (ha : a ∉ wl) :
    nodupKeys (add_locked_value_exclusive_m excl a)
    ∧ (∀ p ∈ add_locked_value_exclusive_m excl a, p.2 = 1)
    ∧ (∀ p ∈ add_locked_value_exclusive_m excl a, p.1 ∈ a :: wl) := by
  have hnone : lookupA excl a = none := by
    cases h : lookupA excl a with
    | none => rfl
    | some c => exact absurd (h2 (a, c) (lookupA_mem h)) ha
  have hrw : add_locked_value_exclusive_m excl a = excl ++ [(a, 1)] := by
    simp [add_locked_value_exclusive_m, hnone, setA_of_lookupA_none excl a 1 hnone]
  rw [hrw]
  refine ⟨?_, ?_, ?_⟩
  · unfold nodupKeys at hn ⊢
    have hna : a ∉ excl.map Prod.fst := (lookupA_eq_none excl a).1 hnone
    simp [List.nodup_append, hn, hna]
  · intro p hp
    rcases List.mem_append.mp hp with hp | hp
    · exact h1 p hp
    · simp at hp
      simp [hp]
  · intro p hp
    rcases List.mem_append.mp hp with hp | hp
    · exact List.mem_cons_of_mem _ (h2 p hp)
    · simp at hp
      simp [hp]

/-- The invariants of the exclusive-lock registry (distinct target keys,
refcount 1, every target backend-write-locked) are preserved by
PUT_LOCATE and PUT_ADVANCE, provided the address a created slot would
get is fresh (not already locked): a second PUT over the same sentinel
fails at the backend lock (E_LOCKED) before reaching the registry, so a
target is never re-added while present. -/
theorem put_excl_invariant_preserved (s : PState) (key : String) (vlen fresh : Nat)
    (dontStomp regOk : Bool) (hn : nodupKeys s.excl) (h1 : exclOne s) (h2 : exclLocked s)
    (hf : fresh ∉ s.wlocked) :
    (nodupKeys (put_locate_step s key vlen fresh dontStomp regOk).1.excl
      ∧ exclOne (put_locate_step s key vlen fresh dontStomp regOk).1
      ∧ exclLocked (put_locate_step s key vlen fresh dontStomp regOk).1)
    ∧ (nodupKeys (put_advance_step s key vlen fresh dontStomp regOk).1.excl
      ∧ exclOne (put_advance_step s key vlen fresh dontStomp regOk).1
      ∧ exclLocked (put_advance_step s key vlen fresh dontStomp regOk).1) := by
  cases dontStomp with
  | true =>
    have e1 : put_locate_step s key vlen fresh true regOk = (s, Status.eInval) := by
      simp [put_locate_step]
    have e2 : put_advance_step s key vlen fresh true regOk = (s, Status.eInval) := by
      simp [put_advance_step]
    rw [e1, e2]
    exact ⟨⟨hn, h1, h2⟩, hn, h1, h2⟩
  | false =>
    cases hs : lookupA s.slots (pendingTag ++ key) with
    | none =>
      have hinv := add_excl_inv s.excl s.wlocked fresh hn h1 h2 hf
      cases regOk with
      | true =>
        have e1 : put_locate_step s key vlen fresh false true =
            (⟨(pendingTag ++ key, fresh, vlen) :: s.slots, fresh :: s.wlocked,
                add_locked_value_exclusive_m s.excl fresh,
                (fresh, pendingTag ++ key, key) :: s.pend⟩, Status.sOk) := by
          simp [put_locate_step, kv_lock_write, hs, is_locked]
        have e2 : put_advance_step s key vlen fresh false true =
            (⟨(pendingTag ++ key, fresh, vlen) :: s.slots, fresh :: s.wlocked,
                add_locked_value_exclusive_m s.excl fresh,
                (fresh, pendingTag ++ key, key) :: s.pend⟩, Status.sOk) := by
          simp [put_advance_step, kv_lock_write, hs, is_locked]
        rw [e1, e2]
        exact ⟨⟨hinv.1, hinv.2.1, hinv.2.2⟩, hinv.1, hinv.2.1, hinv.2.2⟩
      | false =>
        have e1 : put_locate_step s key vlen fresh false false =
            (⟨(pendingTag ++ key, fresh, vlen) :: s.slots, s.wlocked, s.excl, s.pend⟩,
              Status.eFail) := by
          simp [put_locate_step, kv_lock_write, hs, is_locked, kv_unlock,
            List.erase_cons_head]
        have e2 : put_advance_step s key vlen fresh false false =
            (⟨(pendingTag ++ key, fresh, vlen) :: s.slots, s.wlocked, s.excl, s.pend⟩,
              Status.eFail) := by
          simp [put_advance_step, kv_lock_write, hs, is_locked, kv_unlock,
            List.erase_cons_head]
        rw [e1, e2]
        exact ⟨⟨hn, h1, h2⟩, hn, h1, h2⟩
    | some al =>
      obtain ⟨a, l⟩ := al
      by_cases hw : a ∈ s.wlocked
      · have e1 : put_locate_step s key vlen fresh false regOk = (s, Status.eInval) := by
          simp [put_locate_step, kv_lock_write, hs, hw, is_locked]
        have e2 : put_advance_step s key vlen fresh false regOk = (s, Status.eFail) := by
          simp [put_advance_step, kv_lock_write, hs, hw, is_locked]
        rw [e1, e2]
        exact ⟨⟨hn, h1, h2⟩, hn, h1, h2⟩
      · have hinv := add_excl_inv s.excl s.wlocked a hn h1 h2 hw
        have e1ok : put_locate_step s key vlen fresh false true =
            (⟨s.slots, a :: s.wlocked, add_locked_value_exclusive_m s.excl a,
                (a, pendingTag ++ key, key) :: s.pend⟩, Status.sOk) := by
          simp [put_locate_step, kv_lock_write, hs, hw, is_locked]
        have e1no : put_locate_step s key vlen fresh false false = (s, Status.eFail) := by
          simp [put_locate_step, kv_lock_write, hs, hw, is_locked, kv_unlock,
            List.erase_cons_head]
        by_cases hl : l = vlen
        · cases regOk with
          | true =>
            have e2 : put_advance_step s key vlen fresh false true =
                (⟨s.slots, a :: s.wlocked, add_locked_value_exclusive_m s.excl a,
                    (a, pendingTag ++ key, key) :: s.pend⟩, Status.sOk) := by
              simp [put_advance_step, kv_lock_write, hs, hw, is_locked, hl]
            rw [e1ok, e2]
            exact ⟨⟨hinv.1, hinv.2.1, hinv.2.2⟩, hinv.1, hinv.2.1, hinv.2.2⟩
          | false =>
            have e2 : put_advance_step s key vlen fresh false false = (s, Status.eFail) := by
              simp [put_advance_step, kv_lock_write, hs, hw, is_locked, hl, kv_unlock,
                List.erase_cons_head]
            rw [e1no, e2]
            exact ⟨⟨hn, h1, h2⟩, hn, h1, h2⟩
        · have e2 : put_advance_step s key vlen fresh false regOk = (s, Status.eInval) := by
            simp [put_advance_step, kv_lock_write, hs, hw, is_locked, hl, kv_unlock,
              List.erase_cons_head]
          cases regOk with
          | true =>
            rw [e1ok, e2]
            exact ⟨⟨hinv.1, hinv.2.1, hinv.2.2⟩, hn, h1, h2⟩
          | false =>
            rw [e1no, e2]
            exact ⟨⟨hn, h1, h2⟩, hn, h1, h2⟩

/-- The invariants of the exclusive-lock registry are also preserved by
PUT_RELEASE: the release either rejects an unknown target (state
unchanged) or removes the single entry together with its backend lock;
rename resolution touches only the slots and the pending registry. -/
theorem put_release_invariant_preserved (s : PState) (a fresh2 : Nat)
    (hn : nodupKeys s.excl) (h1 : exclOne s) (h2 : exclLocked s) :
    nodupKeys (io_response_put_release_m s a fresh2).1.excl
    ∧ exclOne (io_response_put_release_m s a fresh2).1
    ∧ exclLocked (io_response_put_release_m s a fresh2).1 := by
  cases he : lookupA s.excl a with
  | none =>
    have hstep : io_response_put_release_m s a fresh2 = (s, Status.eInval, false) := by
      simp [io_response_put_release_m, release_locked_value_exclusive_m, he]
    rw [hstep]
    exact ⟨hn, h1, h2⟩
  | some c =>
    have hc : c = 1 := h1 (a, c) (lookupA_mem he)
    subst hc
    have hrel : release_locked_value_exclusive_m s a =
        some ({ s with excl := eraseA s.excl a, wlocked := s.wlocked.erase a }, true) := by
      simp [release_locked_value_exclusive_m, he]
    have hn1 : nodupKeys (eraseA s.excl a) := nodupKeys_eraseA a hn
    have h11 : ∀ p ∈ eraseA s.excl a, p.2 = 1 := fun p hp => h1 p (mem_eraseA_sub hp)
    have h21 : ∀ p ∈ eraseA s.excl a, p.1 ∈ s.wlocked.erase a := by
      intro p hp
      have hne : p.1 ≠ a := fst_ne_of_mem_eraseA hn hp
      exact (List.mem_erase_of_ne hne).mpr (h2 p (mem_eraseA_sub hp))
    cases hrp : release_pending_rename_m
        { s with excl := eraseA s.excl a, wlocked := s.wlocked.erase a } a fresh2 with
    | none =>
      have hstep : io_response_put_release_m s a fresh2 =
          ({ s with excl := eraseA s.excl a, wlocked := s.wlocked.erase a },
            Status.eInval, false) := by
        rw [io_response_put_release_m, hrel]
        dsimp only
        rw [hrp]
      rw [hstep]
      exact ⟨hn1, h11, h21⟩
    | some r =>
      obtain ⟨s2, resolved⟩ := r
      have hstep : io_response_put_release_m s a fresh2 = (s2, Status.sOk, resolved) := by
        rw [io_response_put_release_m, hrel]
        dsimp only
        rw [hrp]
      rw [hstep]
      have hfields := release_pending_rename_m_fields _ _ _ _ hrp
      refine ⟨?_, ?_, ?_⟩
      · have : (s2, Status.sOk, resolved).1.excl = s2.excl := rfl
        rw [this, hfields.1]
        exact hn1
      · intro p hp
        rw [show (s2, Status.sOk, resolved).1.excl = s2.excl from rfl, hfields.1] at hp
        exact h11 p hp
      · intro p hp
        rw [show (s2, Status.sOk, resolved).1.excl = s2.excl from rfl, hfields.1] at hp
        have : (s2, Status.sOk, resolved).1.wlocked = s2.wlocked := rfl
        rw [this, hfields.2.1]
        exact h21 p hp

theorem release_shared_seq_succ (l : List (Nat × Nat)) (a n : Nat) :
    release_shared_seq l a (n + 1) =
      match release_locked_value_shared_m l a with
      | none => none
      | some (l1, b) =>
        match release_shared_seq l1 a n with
        | none => none
        | some (l2, u) => some (l2, (if b then 1 else 0) + u) := rfl

theorem release_shared_seq_drain (n : Nat) :
    ∀ (l : List (Nat × Nat)) (a : Nat), nodupKeys l → lookupA l a = some (n + 1) →
      release_shared_seq l a (n + 1) = some (eraseA l a, 1) := by
  induction n with
  | zero =>
    intro l a _ hl
    simp [release_shared_seq, release_locked_value_shared_m, hl]
  | succ n ih =>
    intro l a hn hl
    have hne : ¬(n + 1 + 1 = 1) := by omega
    have hrel : release_locked_value_shared_m l a = some (setA l a (n + 1), false) := by
      simp [release_locked_value_shared_m, hl, hne]
    have hrec := ih (setA l a (n + 1)) a (nodupKeys_setA l a (n + 1) hn)
      (lookupA_setA_self l a (n + 1))
    rw [eraseA_setA] at hrec
    rw [release_shared_seq_succ, hrel]
    dsimp only
    rw [hrec]
    simp

/-- C3: the shared-lock registry consolidates concurrent readers of one
target address to a single backend lock. A GET_LOCATE of an address
already present (refcount c) only increments that refcount, leaving
every other entry untouched; each single release issues the backend
unlock exactly when the refcount is 1 (returning to zero and erasing the
entry); and c consecutive releases of an address with refcount c issue
exactly one backend unlock in total. -/
theorem c3_shared_lock_consolidation (l : List (Nat × Nat)) (a c : Nat)
    (hn : nodupKeys l) (hc : lookupA l a = some c) (hpos : 1 ≤ c) :
    get_locate_registry_effect l a true true = setA l a (c + 1)
    ∧ (∀ b, b ≠ a → lookupA (get_locate_registry_effect l a true true) b = lookupA l b)
    ∧ release_locked_value_shared_m l a =
        some (if c = 1 then (eraseA l a, true) else (setA l a (c - 1), false))
    ∧ release_shared_seq l a c = some (eraseA l a, 1) := by
  refine ⟨?_, ?_, ?_, ?_⟩
  · simp [get_locate_registry_effect, add_locked_value_shared_m, hc]
  · intro b hb
    simp [get_locate_registry_effect, add_locked_value_shared_m, hc,
      lookupA_setA_ne l a b (c + 1) hb]
  · by_cases h1 : c = 1
    · simp [release_locked_value_shared_m, hc, h1]
    · simp [release_locked_value_shared_m, hc, h1]
  · obtain ⟨n, rfl⟩ : ∃ n, c = n + 1 := ⟨c - 1, by omega⟩
    exact release_shared_seq_drain n l a hn hc

/-- C3 witness: a registry where address 5 is shared-locked with
refcount 2; a further GET_LOCATE raises it to 3, and two releases issue
exactly one backend unlock. -/
theorem c3_shared_lock_consolidation_witness :
    get_locate_registry_effect [(5, 2)] 5 true true = setA [(5, 2)] 5 3
    ∧ release_shared_seq [(5, 2)] 5 2 = some (eraseA [(5, 2)] 5, 1) :=
  ⟨(c3_shared_lock_consolidation [(5, 2)] 5 2 (by unfold nodupKeys; decide) (by decide)
      (by decide)).1,
    (c3_shared_lock_consolidation [(5, 2)] 5 2 (by unfold nodupKeys; decide) (by decide)
      (by decide)).2.2.2⟩
